import Mathlib

/-!
Verification of the Mini-RPC core (client engine, server dispatcher, gob codec,
handshake) by a shallow embedding of the Go source into Lean.

Modelling conventions:
* Machine integers: the client's sequence counter is a Go `uint64`, which wraps
  around on overflow; it is modelled as a `Nat` reduced explicitly modulo 2^64
  (`uint64Size`) at the increment, so after 2^64 - 1 registrations the counter
  wraps to 0 exactly as in Go.  Header sequence values carry counter values and
  need no arithmetic of their own.
* Errors are `String` messages; a fallible operation returns `Except String α`
  or `Option String` (`none` = nil error).
* I/O is modelled by event lists: each element is the outcome of one read on the
  stream.  Mutexed critical sections (`registerCall`, `removeCall`,
  `terminateCalls`, the send path, one receive-loop iteration) are atomic steps;
  a concurrent execution is an interleaving of these atomic steps, so theorems
  quantify over the state at which a step runs.
* `log.Println` calls are dropped (no observable effect on the protocol state).
-/

namespace MiniRPC

/-- Header of one framed message (`codec.Header` in codec/codec.go):
service name, sequence number, and an error string where `""` means no error. -/
structure Header where
  serviceMethod : String
  seq : Nat
  error : String
deriving DecidableEq, Repr

/-- MagicNumber marking an RPC connection (server.go). -/
def MagicNumber : Nat := 0x3bef5c

/-- Option is the handshake record (`Option` in server.go); named `OptionRec`
because `Option` is taken in Lean. -/
structure OptionRec where
  magicNumber : Nat
  codecType : String
deriving DecidableEq, Repr

/-- GobType codec identifier (codec/codec.go). -/
def GobType : String := "application/gob"

/-- JsonType codec identifier, declared but never registered (codec/codec.go). -/
def JsonType : String := "application/json"

/-- DefaultOption (server.go): correct magic number, gob codec. -/
def DefaultOption : OptionRec := ⟨MagicNumber, GobType⟩

/-- NewCodecFuncMap membership: the `init` in codec/codec.go registers exactly
one constructor, for `GobType`.  `true` means the lookup finds a constructor. -/
def codecRegistered (t : String) : Bool := t == GobType

/-! ### Gob codec (codec/gob.go) -/

/-- Observable effects of one `GobCodec.Write` call: whether the buffered writer
was flushed before returning, whether the codec closed itself, and the returned
error (`none` = success). -/
structure WriteEffects where
  flushed : Bool
  closedSelf : Bool
  result : Option String
deriving DecidableEq, Repr

/-- GobCodec.Write (codec/gob.go:58-81): encode the header, then the body; the
deferred block always flushes the buffer and, when the (named) returned error is
non-nil, closes the codec before the error propagates.  The two encoder calls
are represented by their outcomes `hEnc` and `bEnc`; the body encode is only
attempted when the header encode succeeded. -/
def gobWrite (hEnc bEnc : Except String Unit) : WriteEffects :=
  match hEnc with
  | .error e => ⟨true, true, some e⟩
  | .ok _ =>
    match bEnc with
    | .error e => ⟨true, true, some e⟩
    | .ok _ => ⟨true, false, none⟩

/-! ### Server dispatcher (server.go) -/

/-- One read attempt of the server's read loop: either the header read fails
(EOF included), or a header is read and the body is then decoded into the
assumed `string` argv, with `body` the outcome of that decode. -/
inductive SrvRead where
  | headerFail
  | req (h : Header) (body : Except String String)
deriving Repr

/-- readRequest (server.go:120-133): a header-read failure returns a nil request
with the error (`none` here); otherwise the request is returned with a nil
error even when the body decode failed — that failure is only logged
(server.go:129-131) and argv keeps its zero value `""`.  Consequently the
`req != nil && err != nil` branch of serveCodec (server.go:88-91), which would
answer with the decode error and the `invalidRequest` placeholder, can never
run. -/
def readRequest : SrvRead → Option (Header × String)
  | .headerFail => none
  | .req h (.ok v) => some (h, v)
  | .req h (.error _) => some (h, "")

/-- handleRequest (server.go:145-152): the placeholder dispatcher replies
`"geerpc resp <seq>"` and sends the response under the connection's sending
lock, echoing the request header. -/
def handleRequest (h : Header) : Header × String :=
  (h, "geerpc resp " ++ toString h.seq)

/-- serveCodec (server.go:78-99): read requests until a header read fails, then
stop (wait for workers, close the codec).  Emitted responses are listed in
request order; on the wire the per-connection sending mutex serializes them but
their relative order is unspecified, which none of the verified claims rely
on. -/
def serveCodec : List SrvRead → List (Header × String)
  | [] => []
  | ev :: rest =>
    match readRequest ev with
    | none => []
    | some (h, _argv) => handleRequest h :: serveCodec rest

/-- ServeConn (server.go:47-72): decode the Option record (`optRead = none`
models a JSON decode failure), check the magic number, look the codec type up
in the registry; any failure closes the connection having emitted nothing, and
otherwise the connection is served by `serveCodec`.  The returned list is every
framed message the server writes on this connection. -/
def ServeConn (optRead : Option OptionRec) (reads : List SrvRead) :
    List (Header × String) :=
  match optRead with
  | none => []
  | some opt =>
    if opt.magicNumber ≠ MagicNumber then []
    else if ¬ codecRegistered opt.codecType then []
    else serveCodec reads

/-! ### Client engine (the client source file) -/

/-- ErrShutdown (client source): error returned once the connection is closed
or shut down. -/
def ErrShutdown : String := "connection is shut down"

/-- Call: one in-flight RPC (client source).  `args` and the decoded `reply`
are modelled as strings (the demo protocol's body type); `reply = none` means
the reply destination was never written, `error = none` a nil error. -/
structure Call where
  seq : Nat
  serviceMethod : String
  args : String
  reply : Option String
  error : Option String
deriving DecidableEq, Repr

/-- Client bookkeeping state: the fields of `Client` guarded by its mutex `mu`
(sequence counter, pending map, closing/shutdown flags).  The codec and option
are external to this state; the pending map is an association list with unique
keys. -/
structure Client where
  seq : Nat
  pending : List (Nat × Call)
  closing : Bool
  shutdown : Bool
deriving DecidableEq, Repr

/-- Go map read `client.pending[seq]`. -/
def lookupCall (p : List (Nat × Call)) (k : Nat) : Option Call :=
  (p.find? (fun e => e.1 == k)).map Prod.snd

/-- Go map `delete(client.pending, seq)`. -/
def eraseKey (p : List (Nat × Call)) (k : Nat) : List (Nat × Call) :=
  p.filter (fun e => e.1 != k)

/-- Go map write `client.pending[seq] = call`. -/
def insertCall (p : List (Nat × Call)) (k : Nat) (v : Call) :
    List (Nat × Call) :=
  eraseKey p k ++ [(k, v)]

/-- Size of Go's uint64 value space: `client.seq` is a uint64 and its
increment wraps around modulo this. -/
def uint64Size : Nat := 2 ^ 64

/-- registerCall (client source): reject with `ErrShutdown` when closing or
shut down (state untouched, no sequence number consumed); otherwise stamp the
call with the current counter, insert it into the pending map and increment the
counter — `client.seq++` on a uint64, so the increment wraps modulo 2^64.
Runs atomically under `mu`. -/
def registerCall (c : Client) (call : Call) : Client × Except String Nat :=
  if c.closing || c.shutdown then (c, .error ErrShutdown)
  else
    ({ c with pending := insertCall c.pending c.seq { call with seq := c.seq },
              seq := (c.seq + 1) % uint64Size },
     .ok c.seq)

/-- removeCall (client source): look the sequence number up, delete it from the
pending map, return what was found.  Runs atomically under `mu`. -/
def removeCall (c : Client) (k : Nat) : Client × Option Call :=
  ({ c with pending := eraseKey c.pending k }, lookupCall c.pending k)

/-- terminateCalls (client source): under the send lock then `mu`, set
`shutdown` and complete every pending call with the given error (the pending
map itself is not cleared by the Go code; nothing reads it afterwards).  The
returned list is the sequence of `call.done()` completion events. -/
def terminateCalls (c : Client) (err : String) : Client × List Call :=
  ({ c with shutdown := true },
   c.pending.map (fun e => { e.2 with error := some err }))

/-- Close (client source): with `mu` held, a client already `closing` gets
`ErrShutdown` and nothing else happens; otherwise `closing` is set and the call
is forwarded to the codec's Close, whose result `codecCloseRes` is returned.
The middle component records whether the codec's Close was invoked. -/
def Close (c : Client) (codecCloseRes : Option String) :
    Client × Bool × Option String :=
  if c.closing then (c, false, some ErrShutdown)
  else ({ c with closing := true }, true, codecCloseRes)

/-- IsAvailable (client source): usable iff neither shut down nor closing. -/
def IsAvailable (c : Client) : Bool := !c.shutdown && !c.closing

/-- One read attempt of the client's receive loop: either the header read
fails with error `e`, or a header arrives and `body` is the outcome of the
subsequent `ReadBody` (decoded value on success). -/
inductive CliRead where
  | headerFail (e : String)
  | msg (h : Header) (body : Except String String)
deriving Repr

/-- Body of one receive-loop iteration after a successful header read (client
source, the `switch` in `receive`): remove the call for `h.seq`; with no match
discard the body; with a header-carried error record it on the call, discard
the body and signal completion; otherwise decode the body into the call's
reply, a decode failure becoming the call's error, and signal completion.
Returns the new state, the completion events of this step, and the loop's `err`
after the step (`some` stops the loop). -/
def receiveStep (c : Client) (h : Header) (body : Except String String) :
    Client × List Call × Option String :=
  let r := removeCall c h.seq
  match r.2 with
  | none =>
    match body with
    | .ok _ => (r.1, [], none)
    | .error e => (r.1, [], some e)
  | some call =>
    if h.error != "" then
      match body with
      | .ok _ => (r.1, [{ call with error := some h.error }], none)
      | .error e => (r.1, [{ call with error := some h.error }], some e)
    else
      match body with
      | .ok v => (r.1, [{ call with reply := some v }], none)
      | .error e =>
        (r.1, [{ call with error := some ("reading body " ++ e) }], some e)

/-- receive (client source): loop reading headers until a read fails, then
terminate every remaining pending call with the failure.  An exhausted event
list models a loop still blocked on its next header read.  Returns the final
bookkeeping state and all completion events in order. -/
def receive (c : Client) : List CliRead → Client × List Call
  | [] => (c, [])
  | .headerFail e :: _ => terminateCalls c e
  | .msg h body :: rest =>
    let s := receiveStep c h body
    match s.2.2 with
    | some e =>
      let t := terminateCalls s.1 e
      (t.1, s.2.1 ++ t.2)
    | none =>
      let t := receive s.1 rest
      (t.1, s.2.1 ++ t.2)

/-- send (client source): under the send lock, register the call — on rejection
complete it at once with the registration error and send nothing — then write
the framed request; `writeRes` is the codec `Write` outcome, and on a write
failure the call is removed and, when still present, completed with that error.
Returns the new state, the completion events, and the frames written. -/
def send (c : Client) (call : Call) (writeRes : Option String) :
    Client × List Call × List (Header × String) :=
  let r := registerCall c call
  match r.2 with
  | .error e => (r.1, [{ call with error := some e }], [])
  | .ok seq =>
    match writeRes with
    | none => (r.1, [], [(⟨call.serviceMethod, seq, ""⟩, call.args)])
    | some werr =>
      let rc := removeCall r.1 seq
      match rc.2 with
      | some cl => (rc.1, [{ cl with error := some werr }], [])
      | none => (rc.1, [], [])

/-- Call record as built by `Go` before registration (zero `Seq`, empty reply
and error). -/
def mkCall (sm args : String) : Call := ⟨0, sm, args, none, none⟩

/-- Result of the `Go` entry point: either `log.Panic` fired, or `Go` returned
having installed a completion channel of capacity `doneCap` and run `send`. -/
inductive GoResult where
  | panicked (msg : String)
  | returned (doneCap : Nat) (c : Client) (dones : List Call)
      (wire : List (Header × String))
deriving Repr

/-- Go (client source): with no completion channel supplied, create one of
capacity 10; a supplied channel of capacity 0 is a programming error —
`log.Panic` fires before any call is created or sent; otherwise keep the
supplied capacity and send the call.  `done` is the supplied channel's
capacity (`none` = nil channel). -/
def Go (c : Client) (sm args : String) (done : Option Nat)
    (writeRes : Option String) : GoResult :=
  match done with
  | some 0 => .panicked "rpc client: done channel is unbuffered"
  | _ =>
    let cap := match done with | none => 10 | some n => n
    let s := send c (mkCall sm args) writeRes
    .returned cap s.1 s.2.1 s.2.2

/-- newClientCodec (client source): fresh bookkeeping state — the sequence
counter starts at 1 (0 marks an invalid call), the pending map is empty — and
the receive loop is started. -/
def newClientCodec : Client :=
  { seq := 1, pending := [], closing := false, shutdown := false }

/-- parseOptions (client source): an empty list or a nil first element yields
`DefaultOption`; otherwise more than one element is an error; a single option
has its magic number overwritten with the default's and an empty codec type
replaced by the default's. -/
def parseOptions : List (Option OptionRec) → Except String OptionRec
  | [] => .ok DefaultOption
  | none :: _ => .ok DefaultOption
  | [some o] =>
    .ok { o with
          magicNumber := DefaultOption.magicNumber,
          codecType :=
            if o.codecType == "" then DefaultOption.codecType
            else o.codecType }
  | some _ :: _ :: _ => .error "number of options is more than 1"

/-- NewClient (client source): look up the codec constructor for the option's
codec type (failure: "invalid codec type"), JSON-encode the option onto the
connection (`encodeOk` is that outcome), then build the client.  On success it
returns the option as written on the wire together with the fresh client
state. -/
def NewClient (opt : OptionRec) (encodeOk : Bool) :
    Except String (OptionRec × Client) :=
  if ¬ codecRegistered opt.codecType then
    .error ("invalid codec type " ++ opt.codecType)
  else if ¬ encodeOk then .error "options write error"
  else .ok (opt, newClientCodec)

/-- Repeated successful registration: run `registerCall` n times from state
`c`, collecting the sequence numbers handed out.  This is the serialization of
n concurrent callers: each `registerCall` is one atomic critical section under
`mu`, so any concurrent execution is some such sequence. -/
def registerMany (c : Client) : Nat → Client × List Nat
  | 0 => (c, [])
  | n + 1 =>
    let r := registerCall c (mkCall "" "")
    match r.2 with
    | .error _ => (c, [])
    | .ok s =>
      let t := registerMany r.1 n
      (t.1, s :: t.2)

/-! ### Theorems -/

/-- C1 (code-bug evidence): a connection whose first request has a readable
Header (seq 1) but a body that fails to decode, followed by a well-formed
request.  The server answers the corrupt-body request exactly like a normal
one: the response header's error field is `""` (not the decode error) and the
body is the placeholder reply `"geerpc resp 1"` (not the invalid-body
placeholder); the connection continues serving the next request.  The claimed
respond-with-error behaviour is the unreachable branch of serveCodec
(server.go:88-91), dead because readRequest (server.go:129-132) returns a nil
error after a body-decode failure. -/
theorem c1_body_decode_error_answered_as_normal_request :
    serveCodec
        [.req ⟨"Foo.Sum", 1, ""⟩ (.error "gob decode failure"),
         .req ⟨"Foo.Sum", 2, ""⟩ (.ok "req 2")]
      = [(⟨"Foo.Sum", 1, ""⟩, "geerpc resp 1"),
         (⟨"Foo.Sum", 2, ""⟩, "geerpc resp 2")] := by rfl

/-- C4: whenever the Option record fails to decode, carries a wrong magic
number, or names a codec type with no registered constructor, ServeConn closes
the connection having written no framed message at all. -/
theorem c4_handshake_failure_closes_without_response
    (optRead : Option OptionRec) (reads : List SrvRead)
    (h : optRead = none
       ∨ ∃ o, optRead = some o
            ∧ (o.magicNumber ≠ MagicNumber ∨ codecRegistered o.codecType = false)) :
    ServeConn optRead reads = [] := by
  rcases h with h | ⟨o, rfl, h | h⟩
  · simp [h, ServeConn]
  · simp [ServeConn, h]
  · unfold ServeConn
    by_cases hm : o.magicNumber = MagicNumber <;> simp [hm, h]

/-- C4 witness: a wrong magic number (0) with a registered codec yields no
output frames. -/
theorem c4_handshake_failure_closes_without_response_witness :
    ServeConn (some ⟨0, "application/gob"⟩) [SrvRead.headerFail] = [] :=
  c4_handshake_failure_closes_without_response _ _
    (Or.inr ⟨⟨0, "application/gob"⟩, rfl, Or.inl (by decide)⟩)

/-- C6: a call-registration attempt on a client whose closing or shutdown flag
is set leaves the state untouched — same sequence counter, same pending map —
writes nothing on the wire, and completes the call at once with `ErrShutdown`
(one single completion event). -/
theorem c6_registration_rejected_when_closing_or_shutdown
    (c : Client) (call : Call) (w : Option String)
    (h : c.closing = true ∨ c.shutdown = true) :
    send c call w = (c, [{ call with error := some ErrShutdown }], []) := by
  unfold send registerCall
  rcases h with h | h <;> simp [h]

/-- C6 witness: a concrete closing client rejects a registration with
`ErrShutdown` and keeps counter 5 and an empty pending map. -/
theorem c6_registration_rejected_witness :
    send ⟨5, [], true, false⟩ (mkCall "Foo.Sum" "x") none
      = (⟨5, [], true, false⟩,
         [{ mkCall "Foo.Sum" "x" with error := some ErrShutdown }], []) :=
  c6_registration_rejected_when_closing_or_shutdown _ _ _ (Or.inl rfl)

/-- C7: the first Close sets `closing` and forwards to the codec's close
(returning its result), any Close after that returns `ErrShutdown` and changes
neither the client state nor the codec; IsAvailable holds iff neither flag is
set. -/
theorem c7_close_idempotent_and_availability
    (c : Client) (r r2 : Option String) :
    (c.closing = false →
      Close c r = ({ c with closing := true }, true, r)
      ∧ Close (Close c r).1 r2 = ((Close c r).1, false, some ErrShutdown))
    ∧ (c.closing = true → Close c r = (c, false, some ErrShutdown))
    ∧ (IsAvailable c = true ↔ (c.shutdown = false ∧ c.closing = false)) := by
  refine ⟨fun h => ?_, fun h => ?_, ?_⟩
  · simp [Close, h]
  · simp [Close, h]
  · simp [IsAvailable]

/-- C7 witness: on a fresh client the first Close transitions to closing and
forwards, the second returns `ErrShutdown` without touching the state. -/
theorem c7_close_idempotent_witness :
    Close (⟨1, [], false, false⟩ : Client) none
        = (⟨1, [], true, false⟩, true, none)
      ∧ Close (Close (⟨1, [], false, false⟩ : Client) none).1 none
        = ((Close (⟨1, [], false, false⟩ : Client) none).1, false,
           some ErrShutdown) :=
  (c7_close_idempotent_and_availability ⟨1, [], false, false⟩ none none).1 rfl

/-- C8: gobWrite succeeds exactly when both the header and the body encode
succeed, flushes its buffer before returning in every case, and whenever it
propagates an error it has closed the codec first. -/
theorem c8_gob_write_contract (hEnc bEnc : Except String Unit) :
    (gobWrite hEnc bEnc).flushed = true
    ∧ ((gobWrite hEnc bEnc).result = none ↔ hEnc = .ok () ∧ bEnc = .ok ())
    ∧ (∀ e, (gobWrite hEnc bEnc).result = some e →
        (gobWrite hEnc bEnc).closedSelf = true) := by
  rcases hEnc with e | u <;> rcases bEnc with e2 | u2 <;> simp [gobWrite]

/-- C8 witness: a failing header encode makes gobWrite close the codec. -/
theorem c8_gob_write_contract_witness :
    (gobWrite (Except.error "boom") (Except.ok ())).closedSelf = true :=
  (c8_gob_write_contract (Except.error "boom") (Except.ok ())).2.2 "boom" rfl

/-- C9: Go with a nil completion channel installs one of capacity 10 (≥ 10)
and proceeds to send; Go with a supplied channel of capacity 0 panics before
any call is created or sent. -/
theorem c9_go_done_channel_capacity
    (c : Client) (sm args : String) (w : Option String) :
    Go c sm args none w
        = .returned 10 (send c (mkCall sm args) w).1
            (send c (mkCall sm args) w).2.1 (send c (mkCall sm args) w).2.2
      ∧ 10 ≥ 10
      ∧ Go c sm args (some 0) w
        = .panicked "rpc client: done channel is unbuffered" :=
  ⟨rfl, le_refl 10, rfl⟩

/-- C10 (counterexample): two Options are supplied, yet because the first is
nil, parseOptions accepts them and returns the defaults instead of rejecting
with an error. -/
theorem c10_two_options_not_rejected :
    parseOptions [none, some ⟨0, "bogus"⟩] = .ok DefaultOption := by rfl

/-- Helper: from any live client (neither closing nor shut down, counter a
valid uint64 value), n successful registrations hand out the values of the
wrapping uint64 counter: the i-th registration gets `(seq + i) % 2^64`. -/
theorem registerMany_assigned (n : Nat) :
    ∀ c : Client, c.closing = false → c.shutdown = false →
      c.seq < uint64Size →
      (registerMany c n).2
        = (List.range n).map (fun i => (c.seq + i) % uint64Size) := by
  induction n with
  | zero => intro c _ _ _; rfl
  | succ n ih =>
    intro c h1 h2 hlt
    unfold registerMany registerCall
    rw [h1, h2]
    simp only [Bool.or_self, Bool.false_eq_true, if_false]
    have hlt' : (c.seq + 1) % uint64Size < uint64Size :=
      Nat.mod_lt _ (by norm_num [uint64Size])
    rw [ih { seq := (c.seq + 1) % uint64Size,
             pending :=
               insertCall c.pending c.seq { mkCall "" "" with seq := c.seq },
             closing := false, shutdown := false } rfl rfl hlt',
        List.range_succ_eq_map, List.map_cons, List.map_map]
    congr 1
    · show c.seq = (c.seq + 0) % uint64Size
      rw [Nat.add_zero, Nat.mod_eq_of_lt hlt]
    · apply List.map_congr_left
      intro i _
      show ((c.seq + 1) % uint64Size + i) % uint64Size
          = (c.seq + (i + 1)) % uint64Size
      rw [Nat.mod_add_mod]
      exact congrArg (fun t => t % uint64Size) (by omega)

/-- Helper: while the counter cannot wrap (seq + n stays within uint64 range),
the handed-out numbers are the gapless consecutive run starting at the current
counter value. -/
theorem registerMany_assigned_no_wrap (n : Nat) (c : Client)
    (h1 : c.closing = false) (h2 : c.shutdown = false)
    (hlt : c.seq < uint64Size) (hub : c.seq + n ≤ uint64Size) :
    (registerMany c n).2 = List.range' c.seq n := by
  rw [registerMany_assigned n c h1 h2 hlt, List.range'_eq_map_range]
  apply List.map_congr_left
  intro i hi
  rw [List.mem_range] at hi
  show (c.seq + i) % uint64Size = c.seq + i
  exact Nat.mod_eq_of_lt (by omega)

/-- C3 (counterexample): the claim fails at 2^64 successful registrations on a
fresh client — the uint64 counter wraps, so the 2^64-th registered Call is
issued sequence number 0, refuting both "0 is never issued" and strict
increase. -/
theorem c3_wraparound_issues_seq_zero :
    0 ∈ (registerMany newClientCodec (2 ^ 64)).2 := by
  rw [registerMany_assigned (2 ^ 64) newClientCodec rfl rfl
      (by norm_num [newClientCodec, uint64Size])]
  refine List.mem_map.mpr ⟨2 ^ 64 - 1, List.mem_range.mpr (by norm_num), ?_⟩
  show (newClientCodec.seq + (2 ^ 64 - 1)) % uint64Size = 0
  norm_num [newClientCodec, uint64Size]

/-- C3 (amended): as long as fewer than 2^64 registrations are performed — the
entire range where the uint64 counter has not wrapped — the sequence numbers
handed out by n successful registrations on a fresh client are exactly
1, 2, …, n in order: strictly increasing, starting at 1, with no gaps, and 0
is never among them.  `registerMany` is the serialization of the n callers:
`registerCall` is a single critical section under the bookkeeping mutex, so
any concurrent execution runs the registrations in some sequence. -/
theorem c3_sequence_numbers_strictly_increasing_from_one (n : Nat)
    (hn : n < uint64Size) :
    (registerMany newClientCodec n).2 = List.range' 1 n
    ∧ List.Chain' (· < ·) (registerMany newClientCodec n).2
    ∧ (∀ q, q ∈ (registerMany newClientCodec n).2 ↔ 1 ≤ q ∧ q < 1 + n)
    ∧ 0 ∉ (registerMany newClientCodec n).2 := by
  have h : (registerMany newClientCodec n).2 = List.range' 1 n := by
    have h1 : newClientCodec.seq < uint64Size := by
      norm_num [newClientCodec, uint64Size]
    have h2 : newClientCodec.seq + n ≤ uint64Size := by
      show 1 + n ≤ uint64Size
      omega
    exact registerMany_assigned_no_wrap n newClientCodec rfl rfl h1 h2
  refine ⟨h, ?_, ?_, ?_⟩
  · rw [h]
    cases n with
    | zero => simp
    | succ m =>
      rw [List.range'_succ]
      exact List.chain_lt_range' 1 m (by decide)
  · intro q
    rw [h, List.mem_range']
    constructor
    · rintro ⟨i, hi, rfl⟩
      omega
    · intro hq
      exact ⟨q - 1, by omega, by omega⟩
  · rw [h]
    intro hq
    rw [List.mem_range'] at hq
    obtain ⟨i, _, hi⟩ := hq
    omega

/-- C3 witness: three registrations on a fresh client (well below the wrap
bound) yield exactly the numbers 1, 2, 3. -/
theorem c3_sequence_numbers_witness :
    (registerMany newClientCodec 3).2 = List.range' 1 3 :=
  (c3_sequence_numbers_strictly_increasing_from_one 3
    (by norm_num [uint64Size])).1

/-- Sample pending calls and client used by concrete witnesses. -/
def sampleCallOne : Call := ⟨1, "Foo.A", "a", none, none⟩

/-- Second sample pending call. -/
def sampleCallTwo : Call := ⟨2, "Foo.B", "b", none, none⟩

/-- Sample client with two pending calls and counter 3. -/
def sampleClient : Client :=
  ⟨3, [(1, sampleCallOne), (2, sampleCallTwo)], false, false⟩

/-- C2: when the receive loop's header read fails with error `e`, whatever the
client's state at that moment (any pending map with the registry invariants:
unique keys, each call stamped with its key), the client is shut down, the
completion events are exactly one per pending call, each carrying error `e`,
their sequence numbers are exactly the pending keys with no duplicates (each
pending call completed exactly once), and no call whose sequence number is
no longer in the registry is completed. -/
theorem c2_header_read_failure_terminates_pending
    (c : Client) (e : String) (rest : List CliRead)
    (hkeys : (c.pending.map Prod.fst).Nodup)
    (hseq : ∀ p ∈ c.pending, (Prod.snd p).seq = p.1) :
    (receive c (.headerFail e :: rest)).1.shutdown = true
    ∧ (receive c (.headerFail e :: rest)).2
        = c.pending.map (fun p => { p.2 with error := some e })
    ∧ ((receive c (.headerFail e :: rest)).2.map Call.seq
        = c.pending.map Prod.fst)
    ∧ ((receive c (.headerFail e :: rest)).2.map Call.seq).Nodup
    ∧ (∀ q, q ∉ c.pending.map Prod.fst →
        ∀ cl ∈ (receive c (.headerFail e :: rest)).2, cl.seq ≠ q) := by
  have h3 : ((receive c (.headerFail e :: rest)).2.map Call.seq
      = c.pending.map Prod.fst) := by
    show ((c.pending.map fun p => { p.2 with error := some e }).map Call.seq
        = c.pending.map Prod.fst)
    rw [List.map_map]
    exact List.map_congr_left fun p hp => hseq p hp
  refine ⟨rfl, rfl, h3, h3 ▸ hkeys, ?_⟩
  intro q hq cl hcl hclq
  exact hq (hclq ▸ (h3 ▸ List.mem_map_of_mem Call.seq hcl))

/-- C2 witness: a header-read failure "EOF" on the sample client shuts it down
and completes both pending calls with "EOF". -/
theorem c2_header_read_failure_witness :
    (receive sampleClient [.headerFail "EOF"]).1.shutdown = true
    ∧ (receive sampleClient [.headerFail "EOF"]).2
        = sampleClient.pending.map (fun p => { p.2 with error := some "EOF" }) :=
  ⟨(c2_header_read_failure_terminates_pending sampleClient "EOF" []
      (by decide) (by decide)).1,
   (c2_header_read_failure_terminates_pending sampleClient "EOF" []
      (by decide) (by decide)).2.1⟩

/-- C5: one receive-loop iteration after a successful header read.  With no
pending call for the header's sequence, the body is read and discarded and the
loop just continues (a body-read failure there stops the loop and terminates
the remaining calls).  With a match whose header carries a non-empty error,
the call is completed with exactly that error and the body is discarded (its
reply destination untouched).  Otherwise the body is decoded into the call's
reply; on decode failure the call is completed with the "reading body" error
and the loop stops.  In every matched case the call is removed from the
registry and its completion is the first event emitted. -/
theorem c5_receive_message_handling
    (c : Client) (h : Header) (body : Except String String)
    (rest : List CliRead) :
    (lookupCall c.pending h.seq = none →
       ((∀ v, body = .ok v →
          receive c (.msg h body :: rest)
            = receive { c with pending := eraseKey c.pending h.seq } rest)
        ∧ (∀ e, body = .error e →
          receive c (.msg h body :: rest)
            = terminateCalls { c with pending := eraseKey c.pending h.seq } e)))
    ∧ (∀ call, lookupCall c.pending h.seq = some call → h.error ≠ "" →
        ((∀ v, body = .ok v →
           receive c (.msg h body :: rest)
             = ((receive { c with pending := eraseKey c.pending h.seq } rest).1,
                { call with error := some h.error }
                  :: (receive { c with pending := eraseKey c.pending h.seq }
                        rest).2))
         ∧ (∀ e, body = .error e →
           receive c (.msg h body :: rest)
             = ((terminateCalls { c with pending := eraseKey c.pending h.seq }
                   e).1,
                { call with error := some h.error }
                  :: (terminateCalls { c with pending := eraseKey c.pending h.seq }
                        e).2))))
    ∧ (∀ call, lookupCall c.pending h.seq = some call → h.error = "" →
        ((∀ v, body = .ok v →
           receive c (.msg h body :: rest)
             = ((receive { c with pending := eraseKey c.pending h.seq } rest).1,
                { call with reply := some v }
                  :: (receive { c with pending := eraseKey c.pending h.seq }
                        rest).2))
         ∧ (∀ e, body = .error e →
           receive c (.msg h body :: rest)
             = ((terminateCalls { c with pending := eraseKey c.pending h.seq }
                   e).1,
                { call with error := some ("reading body " ++ e) }
                  :: (terminateCalls { c with pending := eraseKey c.pending h.seq }
                        e).2)))) := by
  refine ⟨fun hnone => ⟨fun v hv => ?_, fun e he => ?_⟩,
          fun call hsome hne => ⟨fun v hv => ?_, fun e he => ?_⟩,
          fun call hsome heq => ⟨fun v hv => ?_, fun e he => ?_⟩⟩
  · subst hv
    simp [receive, receiveStep, removeCall, hnone]
  · subst he
    simp [receive, receiveStep, removeCall, hnone]
  · subst hv
    have hb : (h.error != "") = true := bne_iff_ne.mpr hne
    simp [receive, receiveStep, removeCall, hsome, hb]
  · subst he
    have hb : (h.error != "") = true := bne_iff_ne.mpr hne
    simp [receive, receiveStep, removeCall, hsome, hb]
  · subst hv
    simp [receive, receiveStep, removeCall, hsome, heq]
  · subst he
    simp [receive, receiveStep, removeCall, hsome, heq]

/-- C5 witness: on the sample client a response for sequence 1 whose header
carries error "no such service" completes that call with exactly that error,
removes it, and the loop goes on. -/
theorem c5_receive_message_handling_witness :
    receive sampleClient [.msg ⟨"Foo.A", 1, "no such service"⟩ (.ok "ignored")]
      = ((receive { sampleClient with
            pending := eraseKey sampleClient.pending 1 } []).1,
         { sampleCallOne with error := some "no such service" }
           :: (receive { sampleClient with
                 pending := eraseKey sampleClient.pending 1 } []).2) :=
  (((c5_receive_message_handling sampleClient ⟨"Foo.A", 1, "no such service"⟩
      (.ok "ignored") []).2.1 sampleCallOne (by decide)
      (by decide)).1 "ignored" rfl)

/-- Helper: every option record parseOptions accepts carries the fixed magic
number. -/
theorem parseOptions_ok_magic :
    ∀ (opts : List (Option OptionRec)) (o : OptionRec),
      parseOptions opts = .ok o → o.magicNumber = MagicNumber
  | [], o, h => by
    simp [parseOptions] at h
    rw [← h]
    rfl
  | none :: rest, o, h => by
    simp [parseOptions] at h
    rw [← h]
    rfl
  | [some a], o, h => by
    simp [parseOptions] at h
    rw [← h]
    rfl
  | some a :: b :: rest, o, h => by
    simp [parseOptions] at h

/-- C10 (amended): every Option parseOptions accepts has its magic number
overwritten with the fixed constant; a single supplied Option with empty codec
type gets the gob identifier; supplying more than one Option whose first
element is non-nil is rejected with an error (a nil first element instead
selects the defaults, ignoring the rest — the uncovered case); and any client
NewClient builds from a parsed Option writes a handshake record the server
accepts outright (in particular the magic-number check can never fail). -/
theorem c10_parsed_options_always_pass_handshake
    (opts : List (Option OptionRec)) :
    (∀ o, parseOptions opts = .ok o → o.magicNumber = MagicNumber)
    ∧ (∀ o, opts = [some o] → o.codecType = "" →
        parseOptions opts = .ok ⟨MagicNumber, GobType⟩)
    ∧ (∀ o rest, opts = some o :: rest → rest ≠ [] →
        parseOptions opts = .error "number of options is more than 1")
    ∧ (∀ o cl reads, parseOptions opts = .ok o →
        NewClient o true = .ok (o, cl) →
        ServeConn (some o) reads = serveCodec reads) := by
  refine ⟨fun o h => parseOptions_ok_magic opts o h, ?_, ?_, ?_⟩
  · rintro o rfl hct
    simp [parseOptions, hct, DefaultOption]
  · rintro o rest rfl hrest
    cases rest with
    | nil => exact absurd rfl hrest
    | cons b tl => rfl
  · intro o cl reads hok hnc
    have hmag := parseOptions_ok_magic opts o hok
    have hreg : codecRegistered o.codecType = true := by
      by_contra hneg
      simp [NewClient, hneg] at hnc
    unfold ServeConn
    simp [hmag, hreg]

/-- C10 amended-claim witness: two non-nil Options are rejected with the
"more than 1" error. -/
theorem c10_parsed_options_witness :
    parseOptions [some ⟨1, "a"⟩, some ⟨2, "b"⟩]
      = .error "number of options is more than 1" :=
  (c10_parsed_options_always_pass_handshake
      [some ⟨1, "a"⟩, some ⟨2, "b"⟩]).2.2.1
    ⟨1, "a"⟩ [some ⟨2, "b"⟩] rfl (by decide)

end MiniRPC
